import Mathlib

/-!
# Verification of the bluesky-robust-watermarker post-processing pipeline

Shallow embedding of the asynchronous post-processing pipeline of the
`bluesky-robust-watermarker` repository:

* `detectFacets` — the rich-text facet extraction of
  `src/lambda/batch/post-to-bluesky.ts` (URL, mention and hashtag passes,
  UTF-8 byte offsets, final sort by `byteStart`);
* the Step Functions state machine of `src/lib/batch-stack.ts`
  (`CheckImageCount` → `ParallelWatermarkTasks` → `PostToBlueskyTask` →
  `GenerateProvenanceTask` → `UpdateUserListTask`);
* the SQS trigger of `src/lambda/batch/trigger.ts`;
* the progress-record writes (`updateProgress` / `markFailed`) of
  `src/lambda/batch/post-to-bluesky.ts` and
  `src/lambda/batch/generate-provenance.ts`, and the polling endpoint of
  `src/lambda/progress/index.ts`;
* the user-list regeneration step (`update-user-list`);
* `PostDB` of `src/lambda/common/post-db.ts`.

External collaborators (S3, DynamoDB, KMS, the Bluesky network, the DID
resolver) are modelled as oracles supplied through environment records;
each fallible call is an `Except String` outcome drawn from the
environment.  JavaScript strings are modelled as `List Char` where byte
positions matter (all the scanned tokens start and end at code-point
boundaries, so code-point indexing agrees with the UTF-16 indexing used
by the JS regexes on every input relevant here).
-/

namespace Brw

/-! ## UTF-8 byte lengths

`TextEncoder().encode(s).length` is the sum of the UTF-8 sizes of the
code points of `s`. -/

def utf8Len (cs : List Char) : Nat := (cs.map Char.utf8Size).sum

theorem utf8Len_append (a b : List Char) :
    utf8Len (a ++ b) = utf8Len a + utf8Len b := by
  simp [utf8Len]

/-! ## Character classes of the three regexes -/

/-- JavaScript's `\s` class (the WhiteSpace and LineTerminator productions). -/
def jsWhitespace (c : Char) : Bool :=
  c = ' ' || c = '\t' || c = '\n' || c = '\r' ||
  c = Char.ofNat 0x0b || c = Char.ofNat 0x0c ||
  c = Char.ofNat 0xa0 || c = Char.ofNat 0x1680 ||
  (0x2000 ≤ c.toNat && c.toNat ≤ 0x200a) ||
  c = Char.ofNat 0x2028 || c = Char.ofNat 0x2029 ||
  c = Char.ofNat 0x202f || c = Char.ofNat 0x205f ||
  c = Char.ofNat 0x3000 || c = Char.ofNat 0xfeff

/-- The characters excluded by the URL regex body
`[^\s<>"{}|\\^`\[\]]` of `detectFacets`. -/
def isUrlChar (c : Char) : Bool :=
  !(jsWhitespace c || c = '<' || c = '>' || c = Char.ofNat 34 ||
    c = Char.ofNat 123 || c = Char.ofNat 125 || c = '|' || c = '\\' ||
    c = '^' || c = Char.ofNat 96 || c = '[' || c = ']')

/-- Trailing punctuation stripped from a matched URL:
`url.replace(/[.,;:!?\)\]}>"']+$/, '')`. -/
def isTrailingPunct (c : Char) : Bool :=
  c = '.' || c = ',' || c = ';' || c = ':' || c = '!' || c = '?' ||
  c = ')' || c = ']' || c = Char.ofNat 125 || c = '>' ||
  c = Char.ofNat 34 || c = Char.ofNat 39

/-- The characters that terminate a hashtag run: `[^ \r\n]*`. -/
def hashtagStop (c : Char) : Bool := c = ' ' || c = '\r' || c = '\n'

/-! ## Facets -/

inductive FacetFeature where
  | link (uri : List Char)
  | mention (did : String)
  | tag (tg : List Char)
deriving DecidableEq, Repr

structure Facet where
  byteStart : Nat
  byteEnd : Nat
  feature : FacetFeature
deriving DecidableEq, Repr

/-! ## URL pass

`/(https?:\/\/[^\s<>"{}|\\^`\[\]]+)/g`, then
`url.replace(/[.,;:!?\)\]}>"']+$/, '')`, with
`start = encode(text.substring(0, match.index)).length` and
`end = start + encode(url).length`. -/

/-- Strip the maximal trailing run of `isTrailingPunct` characters. -/
def stripTrailingPunct (cs : List Char) : List Char :=
  ((cs.reverse).dropWhile isTrailingPunct).reverse

/-- If `cs` starts with the literal `https?:\/\/` part of the URL regex,
return it and the remainder. -/
def httpSchemeSplit (cs : List Char) : Option (List Char × List Char) :=
  if cs.take 8 = "https://".toList then some (cs.take 8, cs.drop 8)
  else if cs.take 7 = "http://".toList then some (cs.take 7, cs.drop 7)
  else none

/-- Try to match the URL regex anchored at the head of `cs`; on success
return the full match (scheme plus the maximal nonempty run of URL
characters) and the rest of the input. -/
def tryUrlAt (cs : List Char) : Option (List Char × List Char) :=
  match httpSchemeSplit cs with
  | none => none
  | some (pfx, rest) =>
    let run := rest.takeWhile isUrlChar
    if run.isEmpty then none
    else some (pfx ++ run, rest.dropWhile isUrlChar)

/-- One step of the global URL scan: `done` is the already-consumed
prefix of the text (used to compute the UTF-8 byte offset exactly as the
source does, by encoding the prefix up to the match), the fuel bounds the
number of regex-engine steps. -/
def urlScanAux : Nat → List Char → List Char → List Facet
  | 0, _, _ => []
  | _, _, [] => []
  | fuel + 1, done, c :: rest =>
    match tryUrlAt (c :: rest) with
    | some (m, rest') =>
      let url := stripTrailingPunct m
      { byteStart := utf8Len done,
        byteEnd := utf8Len done + utf8Len url,
        feature := .link url } :: urlScanAux fuel (done ++ m) rest'
    | none => urlScanAux fuel (done ++ [c]) rest

def urlPass (cs : List Char) : List Facet := urlScanAux (cs.length + 1) [] cs

/-! ## Mention pass

`/(@[^\s\r\n]+)\s?/g`; each match is kept as `(prefix, fullMatch)`; a
facet is emitted only when the DID resolution of the handle (the match
without its `@`) succeeds.  (`\s` already contains `\r` and `\n`, and the
`handle.length > 0` guard of the source is implied by the `+`.) -/

/-- The optional `\s?` at the end of the mention regex: it consumes one
following whitespace character (affecting only where the global scan
resumes, not the captured group). -/
def takeMentionSep : List Char → List Char × List Char
  | d :: r => if jsWhitespace d then ([d], r) else ([], d :: r)
  | [] => ([], [])

def mentionScanAux : Nat → List Char → List Char → List (List Char × List Char)
  | 0, _, _ => []
  | _, _, [] => []
  | fuel + 1, done, c :: rest =>
    if c = '@' then
      let run := rest.takeWhile (fun d => !jsWhitespace d)
      if run.isEmpty then mentionScanAux fuel (done ++ [c]) rest
      else
        let fullMatch := c :: run
        let sepSplit := takeMentionSep (rest.dropWhile (fun d => !jsWhitespace d))
        (done, fullMatch) ::
          mentionScanAux fuel (done ++ fullMatch ++ sepSplit.1) sepSplit.2
    else mentionScanAux fuel (done ++ [c]) rest

def mentionPass (resolver : List Char → Option String) (cs : List Char) :
    List Facet :=
  (mentionScanAux (cs.length + 1) [] cs).filterMap fun pm =>
    match resolver (pm.2.drop 1) with
    | some did =>
      some { byteStart := utf8Len pm.1,
             byteEnd := utf8Len pm.1 + utf8Len pm.2,
             feature := .mention did }
    | none => none

/-! ## Hashtag pass

`/((#)[^ \r\n]*)( |\r\n|\n|\r)?/g`; a facet is emitted when the tag (the
match without its `#`) is nonempty. -/

/-- The optional separator alternation `( |\r\n|\n|\r)?`. -/
def takeHashtagSep : List Char → List Char × List Char
  | ' ' :: r => ([' '], r)
  | '\r' :: '\n' :: r => (['\r', '\n'], r)
  | '\n' :: r => (['\n'], r)
  | '\r' :: r => (['\r'], r)
  | r => ([], r)

def hashtagScanAux : Nat → List Char → List Char → List Facet
  | 0, _, _ => []
  | _, _, [] => []
  | fuel + 1, done, c :: rest =>
    if c = '#' then
      let run := rest.takeWhile (fun d => !hashtagStop d)
      let fullMatch := c :: run
      let sepSplit := takeHashtagSep (rest.dropWhile (fun d => !hashtagStop d))
      if run.isEmpty then
        hashtagScanAux fuel (done ++ fullMatch ++ sepSplit.1) sepSplit.2
      else
        { byteStart := utf8Len done,
          byteEnd := utf8Len done + utf8Len fullMatch,
          feature := .tag run } ::
          hashtagScanAux fuel (done ++ fullMatch ++ sepSplit.1) sepSplit.2
    else hashtagScanAux fuel (done ++ [c]) rest

def hashtagPass (cs : List Char) : List Facet :=
  hashtagScanAux (cs.length + 1) [] cs

/-! ## detectFacets -/

/-- The comparator `(a, b) => a.index.byteStart - b.index.byteStart`. -/
def facetLE (a b : Facet) : Prop := a.byteStart ≤ b.byteStart

instance : DecidableRel facetLE := fun a b => Nat.decLe _ _

instance : IsTotal Facet facetLE := ⟨fun a b => Nat.le_total _ _⟩

instance : IsTrans Facet facetLE := ⟨fun _ _ _ => Nat.le_trans⟩

/-- `detectFacets` of `src/lambda/batch/post-to-bluesky.ts`: the three
passes run over the same text, the resolved mention facets are appended
after the link facets, the hashtag facets last, and the combined list is
sorted by `byteStart` (a stable comparison sort, as `Array.prototype.sort`
is). -/
def detectFacets (resolver : List Char → Option String) (cs : List Char) :
    List Facet :=
  List.insertionSort facetLE
    (urlPass cs ++ mentionPass resolver cs ++ hashtagPass cs)

/-- Two byte spans overlap when neither ends before the other starts. -/
def spanOverlapB (a b : Facet) : Bool :=
  a.byteStart < b.byteEnd && b.byteStart < a.byteEnd

/-- Executable check that no two facets of the list have overlapping
byte ranges. -/
def noOverlapB : List Facet → Bool
  | [] => true
  | f :: fs => fs.all (fun g => !spanOverlapB f g) && noOverlapB fs

/-! ## Span decomposition lemmas

Every facet produced by a pass sits on an actual occurrence in the text:
the text splits as `pre ++ tok ++ suf` with `byteStart` the UTF-8 byte
length of `pre` and `byteEnd` adding the UTF-8 byte length of `tok`. -/

/-- A facet `f` is an exact byte span of some occurrence inside `cs`. -/
def SpanOf (cs : List Char) (f : Facet) : Prop :=
  ∃ pre tok suf, cs = pre ++ (tok ++ suf) ∧
    f.byteStart = utf8Len pre ∧ f.byteEnd = utf8Len pre + utf8Len tok

theorem stripTrailingPunct_append (cs : List Char) :
    stripTrailingPunct cs ++ (cs.reverse.takeWhile isTrailingPunct).reverse = cs := by
  unfold stripTrailingPunct
  rw [← List.reverse_append, List.takeWhile_append_dropWhile, List.reverse_reverse]

theorem httpSchemeSplit_eq {cs pfx rest : List Char}
    (h : httpSchemeSplit cs = some (pfx, rest)) : pfx ++ rest = cs := by
  unfold httpSchemeSplit at h
  split at h
  · simp only [Option.some.injEq, Prod.mk.injEq] at h
    rw [← h.1, ← h.2]; exact List.take_append_drop _ _
  · split at h
    · simp only [Option.some.injEq, Prod.mk.injEq] at h
      rw [← h.1, ← h.2]; exact List.take_append_drop _ _
    · exact absurd h (by simp)

theorem tryUrlAt_split {cs m rest' : List Char}
    (h : tryUrlAt cs = some (m, rest')) : m ++ rest' = cs := by
  unfold tryUrlAt at h
  cases hd : httpSchemeSplit cs with
  | none => rw [hd] at h; exact absurd h (by simp)
  | some pr =>
    rw [hd] at h
    obtain ⟨pfx, rest⟩ := pr
    simp only at h
    split at h
    · exact absurd h (by simp)
    · simp only [Option.some.injEq, Prod.mk.injEq] at h
      rw [← h.1, ← h.2, List.append_assoc, List.takeWhile_append_dropWhile]
      exact httpSchemeSplit_eq hd

theorem urlScanAux_spans :
    ∀ (fuel : Nat) (done rest : List Char) (f : Facet),
      f ∈ urlScanAux fuel done rest → SpanOf (done ++ rest) f := by
  intro fuel
  induction fuel with
  | zero => intro done rest f hf; simp [urlScanAux] at hf
  | succ n ih =>
    intro done rest f hf
    cases rest with
    | nil => simp [urlScanAux] at hf
    | cons c rest =>
      rw [urlScanAux] at hf
      cases hu : tryUrlAt (c :: rest) with
      | none =>
        rw [hu] at hf
        have := ih (done ++ [c]) rest f hf
        rwa [List.append_assoc] at this
      | some pr =>
        obtain ⟨m, rest'⟩ := pr
        rw [hu] at hf
        simp only [List.mem_cons] at hf
        rcases hf with hf | hf
        · refine ⟨done, stripTrailingPunct m,
            (m.reverse.takeWhile isTrailingPunct).reverse ++ rest', ?_, ?_, ?_⟩
          · calc done ++ c :: rest = done ++ (m ++ rest') := by
                  rw [tryUrlAt_split hu]
              _ = done ++ ((stripTrailingPunct m ++
                    (m.reverse.takeWhile isTrailingPunct).reverse) ++ rest') := by
                  rw [stripTrailingPunct_append]
              _ = done ++ (stripTrailingPunct m ++
                    ((m.reverse.takeWhile isTrailingPunct).reverse ++ rest')) := by
                  rw [List.append_assoc]
          · rw [hf]
          · rw [hf]
        · have := ih (done ++ m) rest' f hf
          rw [List.append_assoc] at this
          rwa [tryUrlAt_split hu] at this

theorem takeMentionSep_split (r : List Char) :
    (takeMentionSep r).1 ++ (takeMentionSep r).2 = r := by
  cases r with
  | nil => simp [takeMentionSep]
  | cons d r =>
    by_cases hws : jsWhitespace d <;> simp [takeMentionSep, hws]

theorem mentionScanAux_spans :
    ∀ (fuel : Nat) (done rest : List Char) (pre full : List Char),
      (pre, full) ∈ mentionScanAux fuel done rest →
      ∃ suf, done ++ rest = pre ++ (full ++ suf) := by
  intro fuel
  induction fuel with
  | zero => intro done rest pre full h; simp [mentionScanAux] at h
  | succ n ih =>
    intro done rest pre full h
    cases rest with
    | nil => simp [mentionScanAux] at h
    | cons c rest =>
      rw [mentionScanAux] at h
      by_cases hc : c = '@'
      · rw [if_pos hc] at h
        have hsplit : (c :: rest.takeWhile (fun d => !jsWhitespace d)) ++
            ((takeMentionSep (rest.dropWhile (fun d => !jsWhitespace d))).1 ++
             (takeMentionSep (rest.dropWhile (fun d => !jsWhitespace d))).2) = c :: rest := by
          rw [takeMentionSep_split]
          simp [List.takeWhile_append_dropWhile]
        by_cases hrun : (rest.takeWhile (fun d => !jsWhitespace d)).isEmpty
        · rw [if_pos hrun] at h
          have := ih (done ++ [c]) rest pre full h
          rwa [List.append_assoc] at this
        · rw [if_neg hrun] at h
          simp only [List.mem_cons, Prod.mk.injEq] at h
          rcases h with ⟨h1, h2⟩ | h
          · refine ⟨(takeMentionSep (rest.dropWhile (fun d => !jsWhitespace d))).1 ++
              (takeMentionSep (rest.dropWhile (fun d => !jsWhitespace d))).2, ?_⟩
            rw [h1, h2, hsplit]
          · obtain ⟨suf, hsuf⟩ := ih _ _ pre full h
            refine ⟨suf, ?_⟩
            rw [← hsplit]
            simpa [List.append_assoc] using hsuf
      · rw [if_neg hc] at h
        have := ih (done ++ [c]) rest pre full h
        rwa [List.append_assoc] at this

theorem takeHashtagSep_split (r : List Char) :
    (takeHashtagSep r).1 ++ (takeHashtagSep r).2 = r := by
  unfold takeHashtagSep
  split <;> simp

theorem hashtagScanAux_spans :
    ∀ (fuel : Nat) (done rest : List Char) (f : Facet),
      f ∈ hashtagScanAux fuel done rest → SpanOf (done ++ rest) f := by
  intro fuel
  induction fuel with
  | zero => intro done rest f hf; simp [hashtagScanAux] at hf
  | succ n ih =>
    intro done rest f hf
    cases rest with
    | nil => simp [hashtagScanAux] at hf
    | cons c rest =>
      rw [hashtagScanAux] at hf
      by_cases hc : c = '#'
      · rw [if_pos hc] at hf
        have hsplit : rest.takeWhile (fun d => !hashtagStop d) ++
            ((takeHashtagSep (rest.dropWhile (fun d => !hashtagStop d))).1 ++
             (takeHashtagSep (rest.dropWhile (fun d => !hashtagStop d))).2) = rest := by
          rw [takeHashtagSep_split, List.takeWhile_append_dropWhile]
        by_cases hrun : (rest.takeWhile (fun d => !hashtagStop d)).isEmpty
        · rw [if_pos hrun] at hf
          have h1 := ih _ _ f hf
          have h2 : SpanOf (done ++ (c :: (rest.takeWhile (fun d => !hashtagStop d) ++
              ((takeHashtagSep (rest.dropWhile (fun d => !hashtagStop d))).1 ++
               (takeHashtagSep (rest.dropWhile (fun d => !hashtagStop d))).2)))) f := by
            simpa [List.append_assoc] using h1
          rwa [hsplit] at h2
        · rw [if_neg hrun] at hf
          simp only [List.mem_cons] at hf
          rcases hf with hf | hf
          · refine ⟨done, c :: rest.takeWhile (fun d => !hashtagStop d),
              (takeHashtagSep (rest.dropWhile (fun d => !hashtagStop d))).1 ++
              (takeHashtagSep (rest.dropWhile (fun d => !hashtagStop d))).2, ?_, ?_, ?_⟩
            · simp only [List.cons_append, hsplit]
            · rw [hf]
            · rw [hf]
          · have h1 := ih _ _ f hf
            have h2 : SpanOf (done ++ (c :: (rest.takeWhile (fun d => !hashtagStop d) ++
                ((takeHashtagSep (rest.dropWhile (fun d => !hashtagStop d))).1 ++
                 (takeHashtagSep (rest.dropWhile (fun d => !hashtagStop d))).2)))) f := by
              simpa [List.append_assoc] using h1
            rwa [hsplit] at h2
      · rw [if_neg hc] at hf
        have := ih (done ++ [c]) rest f hf
        rwa [List.append_assoc] at this

theorem mentionPass_spans {resolver : List Char → Option String}
    {cs : List Char} {f : Facet} (hf : f ∈ mentionPass resolver cs) :
    SpanOf cs f := by
  unfold mentionPass at hf
  obtain ⟨⟨pre, full⟩, hmem, hres⟩ := List.mem_filterMap.mp hf
  have hspan := mentionScanAux_spans (cs.length + 1) [] cs pre full hmem
  obtain ⟨suf, hsuf⟩ := hspan
  simp only [List.nil_append] at hsuf
  cases hr : resolver (full.drop 1) with
  | none => rw [hr] at hres; exact absurd hres (by simp)
  | some did =>
    rw [hr] at hres
    simp only [Option.some.injEq] at hres
    exact ⟨pre, full, suf, hsuf, by rw [← hres], by rw [← hres]⟩

/-! ## Theorems for the facet claims -/

/-- The text used by the multibyte hashtag example. -/
def multibyteText : List Char := "こんにちは #猫 です".toList

/-- A resolver that resolves no handle (no mention facets emitted). -/
def noResolve : List Char → Option String := fun _ => none

/-- A text with a hashtag-looking substring inside a URL: the hashtag
pass re-scans the URL's byte range. -/
def c6Text : List Char := "https://a.com/#x".toList

/-- C6 counterexample: on `"https://a.com/#x"` (with no mention
resolution) `detectFacets` returns a link span `[0, 16)` and a tag span
`[14, 16)`, which overlap — the hashtag-looking substring inside the
matched URL produces its own facet, falsifying the no-overlap half of
the claim. -/
theorem detectFacets_overlap_inside_url :
    noOverlapB (detectFacets noResolve c6Text) = false ∧
    (detectFacets noResolve c6Text).map (fun f => (f.byteStart, f.byteEnd)) =
      [(0, 16), (14, 16)] := by decide

/-- C6 (amended): the span list returned by `detectFacets` is always
sorted ascending by `byteStart`; spans are however not guaranteed to be
disjoint — a hashtag-looking or mention-looking substring inside a
matched URL is re-scanned and produces its own overlapping span. -/
theorem detectFacets_sorted (resolver : List Char → Option String)
    (cs : List Char) : List.Sorted facetLE (detectFacets resolver cs) :=
  List.sorted_insertionSort facetLE _

/-- C7: every facet produced by `detectFacets` marks an actual
occurrence in the text: the text splits as `pre ++ tok ++ suf` with
`byteStart` equal to the UTF-8 byte length of the preceding text `pre`
(not its character count) and `byteEnd` equal to `byteStart` plus the
UTF-8 byte length of the matched token `tok`. -/
theorem detectFacets_byte_offsets (resolver : List Char → Option String)
    (cs : List Char) (f : Facet) (hf : f ∈ detectFacets resolver cs) :
    SpanOf cs f := by
  unfold detectFacets at hf
  rw [List.mem_insertionSort] at hf
  rcases List.mem_append.mp hf with hf | hf
  · rcases List.mem_append.mp hf with hf | hf
    · have := urlScanAux_spans (cs.length + 1) [] cs f hf
      rwa [List.nil_append] at this
    · exact mentionPass_spans hf
  · have := hashtagScanAux_spans (cs.length + 1) [] cs f hf
    rwa [List.nil_append] at this

/-- C7 witness: the facet `detectFacets` computes for the hashtag
`#猫` inside `"こんにちは #猫 です"` spans bytes `[16, 20)` — `16` is
the UTF-8 byte length of the preceding text `"こんにちは "`, which has
only `6` characters. -/
theorem detectFacets_byte_offsets_witness :
    SpanOf multibyteText
      { byteStart := 16, byteEnd := 20, feature := .tag "猫".toList } ∧
    utf8Len "こんにちは ".toList = 16 ∧ ("こんにちは ".toList).length = 6 :=
  ⟨detectFacets_byte_offsets noResolve multibyteText _ (by decide),
   by decide, by decide⟩

/-! ## The post-processing pipeline

Data model of `post.json`, the progress table, the pipeline payloads and
the step handlers. -/

structure ImageMeta where
  index : Nat
  extension : String
  format : String
  altText : Option String
deriving DecidableEq, Repr

/-- The parsed PostSubmission object at `postId/post.json`.  The ISO
timestamp `createdAt` is modelled by the epoch value it parses to (the
code only ever feeds it to `new Date(...)` for comparison or display). -/
structure PostData where
  userId : String
  text : Option String
  contentLabels : Option (List String)
  imageMetadata : Option (List ImageMeta)
  image : Option String
  createdAt : Nat
deriving DecidableEq, Repr

/-- JS truthiness of an optional string field (absent and empty are falsy). -/
def strTruthy : Option String → Bool
  | some s => !(s = "")
  | none => false

/-- One item of the `processing-progress` DynamoDB table, as written by
the shared `updateProgress` helper of `post-to-bluesky.ts` and
`generate-provenance.ts` (the `updated_at` epoch string and the numeric
`ttl` attribute are modelled as naturals). -/
structure ProgressItem where
  task_id : String
  status : String
  progress : Nat
  message : String
  updated_at : Nat
  ttl : Nat
  error : Option String
deriving DecidableEq, Repr

/-- Embedding of the `updateProgress` helper: a single `PutItem` keyed by
`task_id`, skipped entirely when the table-name environment variable is
unset; the `error` attribute is set only for a truthy (nonempty) error
string; `ttl` is 24 hours after the write.  A failing `PutItem` is caught
and swallowed by the source, so the put is recorded unconditionally here.
The result is the list of puts performed, in order. -/
def updateProgress (tableName : Option String) (now : Nat)
    (taskId status : String) (progressVal : Nat) (message : String)
    (error : Option String) : List ProgressItem :=
  match tableName with
  | none => []
  | some _ =>
    [{ task_id := taskId, status := status, progress := progressVal,
       message := message, updated_at := now, ttl := now + 86400,
       error := match error with
         | some s => if s = "" then none else some s
         | none => none }]

/-- Embedding of `error.message || 'Unknown error'`. -/
def orUnknown (e : String) : String := if e = "" then "Unknown error" else e

/-- Embedding of `markFailed` of `post-to-bluesky.ts` (default progress 40). -/
def markFailedPublish (tableName : Option String) (now : Nat)
    (taskId e : String) : List ProgressItem :=
  updateProgress tableName now taskId "error" 40 "Bluesky posting failed"
    (some (orUnknown e))

/-- Embedding of `markFailed` of `generate-provenance.ts` (default progress 80). -/
def markFailedProvenance (tableName : Option String) (now : Nat)
    (taskId e : String) : List ProgressItem :=
  updateProgress tableName now taskId "error" 80 "Provenance generation failed"
    (some (orUnknown e))

/-- Response shape of the polling endpoint `GET /progress/taskId`
(`src/lambda/progress/index.ts`): `completed` is derived, true exactly
for the `completed` and `error` statuses.  (`progress || 0` and
`message || ''` are identities here because every writer sets both.) -/
structure ProgressResponse where
  taskId : String
  status : String
  progressVal : Nat
  message : String
  error : Option String
  completed : Bool
deriving DecidableEq, Repr

def progressResponse (it : ProgressItem) : ProgressResponse :=
  { taskId := it.task_id, status := it.status, progressVal := it.progress,
    message := it.message, error := it.error,
    completed := it.status = "completed" || it.status = "error" }

/-- The user object at `userId.json` in the user-info bucket, as read by
the Publish step (after `sanitizeUserInput`). -/
structure UserInfoS3 where
  blueskyUserId : String
  encryptedBlueskyAppPassword : String
deriving DecidableEq, Repr

/-- The user record read from the users DynamoDB table by the
provenance step. -/
structure UserInfoDB where
  blueskyUserId : String
  provenancePageId : String
deriving DecidableEq, Repr

/-- One entry of the Bluesky image embed, as assembled by the image loop
of the Publish step. -/
structure ImageEmbed where
  blob : String
  alt : String
  width : Nat
  height : Nat
deriving DecidableEq, Repr

/-- The record passed to `com.atproto.repo.createRecord`: text, the
facet list (only when the text is truthy and at least one facet was
found), the self labels (only when nonempty) and the image embed (only
when at least one image loaded). -/
structure PostContent where
  text : Option String
  createdAt : Nat
  facets : Option (List Facet)
  labels : Option (List String)
  embed : Option (List ImageEmbed)
deriving DecidableEq, Repr

/-- Environment of the Publish step: every external call it makes is an
oracle, fallible ones as `Except String` outcomes (the `String` is the
thrown error's message).  The wall clock drives `new Date()` and the
progress timestamps. -/
structure PublishEnv where
  tableName : Option String
  now : Nat
  postDataBucket : String
  postJson : Except String PostData
  userJson : String → Except String UserInfoS3
  decrypt : String → Except String String
  login : String → String → Except String Unit
  resolveHandle : List Char → Option String
  fetchImage : String → Except String (Nat × Nat)
  uploadBlob : String → Except String String
  createRecord : PostContent → Except String (String × String)

/-- The per-image part of the image loop: S3 get, `sharp` metadata and
`uploadBlob`, for each metadata entry in order; the first failure aborts
the loop. -/
def buildImagesGo (env : PublishEnv) (postId : String) :
    List ImageMeta → Except String (List ImageEmbed)
  | [] => .ok []
  | m :: ms => do
    let imageKey := postId ++ "/image" ++ toString m.index ++ "." ++ m.extension
    let wh ← env.fetchImage imageKey
    let blob ← env.uploadBlob imageKey
    let tail ← buildImagesGo env postId ms
    .ok ({ blob := blob, alt := m.altText.getD "", width := wh.1,
           height := wh.2 } :: tail)

/-- The image block of the Publish step is wrapped in its own
`try/catch`: any failure drops all images and the post continues without
an embed. -/
def buildImages (env : PublishEnv) (postId : String)
    (metas : List ImageMeta) : Option (List ImageEmbed) :=
  match buildImagesGo env postId metas with
  | .ok l => some l
  | .error _ => none

/-- The payload returned by a successful Publish step: the input spread
plus the corrected `userId` (taken from `post.json`, not the caller),
the created post's uri/cid and `postedAt`; `content` records what was
sent to `createRecord`. -/
structure PublishOut where
  postId : String
  userId : String
  bucket : String
  blueskyPostUri : String
  blueskyPostCid : String
  postedAt : Nat
  content : PostContent
deriving DecidableEq, Repr

/-- Handler of `src/lambda/batch/post-to-bluesky.ts`.  The input is the
first element of the Map output array (or the event itself); `bucket`
defaults to the `POST_DATA_BUCKET` environment variable when absent.
Returns the handler outcome — the catch block re-raises every exception
after `markFailed`, so an internal failure is an `Except.error` — paired
with the progress-table writes, in program order. -/
def publishStep (env : PublishEnv) (postId : String) (bucket : Option String) :
    Except String PublishOut × List ProgressItem :=
  let bkt := bucket.getD env.postDataBucket
  let w35 := updateProgress env.tableName env.now postId "posting" 35
    "Starting Bluesky post" none
  match env.postJson with
  | .error e => (.error e, w35 ++ markFailedPublish env.tableName env.now postId e)
  | .ok pd =>
    match env.userJson pd.userId with
    | .error e => (.error e, w35 ++ markFailedPublish env.tableName env.now postId e)
    | .ok ui =>
      match env.decrypt ui.encryptedBlueskyAppPassword with
      | .error e => (.error e, w35 ++ markFailedPublish env.tableName env.now postId e)
      | .ok pw =>
        let w40 := updateProgress env.tableName env.now postId "posting" 40
          "Connecting to Bluesky" none
        match env.login ui.blueskyUserId pw with
        | .error e =>
          (.error e, w35 ++ w40 ++ markFailedPublish env.tableName env.now postId e)
        | .ok _ =>
          let facetsOpt : Option (List Facet) :=
            if strTruthy pd.text then
              let fs := detectFacets env.resolveHandle (pd.text.getD "").toList
              if fs.isEmpty then none else some fs
            else none
          let labelsOpt : Option (List String) :=
            match pd.contentLabels with
            | some ls => if 0 < ls.length then some ls else none
            | none => none
          let embedOpt : Option (List ImageEmbed) :=
            match pd.imageMetadata with
            | some ms =>
              if 0 < ms.length then
                match buildImages env postId ms with
                | some imgs => if 0 < imgs.length then some imgs else none
                | none => none
              else none
            | none => none
          let content : PostContent :=
            { text := pd.text, createdAt := env.now, facets := facetsOpt,
              labels := labelsOpt, embed := embedOpt }
          let w60 := updateProgress env.tableName env.now postId "posting" 60
            "Publishing to Bluesky" none
          match env.createRecord content with
          | .error e =>
            (.error e, w35 ++ w40 ++ w60 ++
              markFailedPublish env.tableName env.now postId e)
          | .ok uc =>
            let w70 := updateProgress env.tableName env.now postId "posting" 70
              "Bluesky post completed" none
            (.ok { postId := postId, userId := pd.userId, bucket := bkt,
                   blueskyPostUri := uc.1, blueskyPostCid := uc.2,
                   postedAt := env.now, content := content },
             w35 ++ w40 ++ w60 ++ w70)

/-- The durable PostRecord persisted by `postDB.savePost` in the
provenance step, exactly the `postInfo` object the source builds. -/
structure PostInfo where
  postId : String
  userId : String
  blueskyUserId : String
  text : Option String
  imageMetadata : Option (List ImageMeta)
  contentLabels : Option (List String)
  blueskyPostUri : String
  postedAt : Nat
  createdAt : Nat
  provenancePageId : String
deriving DecidableEq, Repr

/-- Environment of the Provenance step. -/
structure ProvEnv where
  tableName : Option String
  now : Nat
  provenancePublicBucket : String
  postJson : Except String PostData
  getUserInfo : String → Except String (Option UserInfoDB)
  savePostOutcome : Except String Unit
  putPageOutcome : Except String Unit

structure ProvOut where
  provenanceUrl : String
deriving DecidableEq, Repr

/-- Handler of `src/lambda/batch/generate-provenance.ts`.  Returns the
handler outcome, the PostRecords actually persisted by `savePost`
(`[]` or one record) and the progress writes in program order.  The HTML
rendering is pure templating (an excluded collaborator) and cannot
throw; the page is persisted at `provenance/postId/index.html` in the
public bucket. -/
def provenanceStep (env : ProvEnv) (p : PublishOut) :
    Except String ProvOut × List PostInfo × List ProgressItem :=
  let w75 := updateProgress env.tableName env.now p.postId "generating" 75
    "Generating provenance page" none
  match env.postJson with
  | .error e =>
    (.error e, [], w75 ++ markFailedProvenance env.tableName env.now p.postId e)
  | .ok pd =>
    match env.getUserInfo p.userId with
    | .error e =>
      (.error e, [], w75 ++ markFailedProvenance env.tableName env.now p.postId e)
    | .ok none =>
      let e := "User info not found for userId: " ++ p.userId
      (.error e, [], w75 ++ markFailedProvenance env.tableName env.now p.postId e)
    | .ok (some ui) =>
      let w85 := updateProgress env.tableName env.now p.postId "generating" 85
        "Saving post information" none
      let postInfo : PostInfo :=
        { postId := p.postId, userId := p.userId,
          blueskyUserId := ui.blueskyUserId, text := pd.text,
          imageMetadata := pd.imageMetadata, contentLabels := pd.contentLabels,
          blueskyPostUri := p.blueskyPostUri, postedAt := p.postedAt,
          createdAt := pd.createdAt, provenancePageId := ui.provenancePageId }
      match env.savePostOutcome with
      | .error e =>
        (.error e, [],
         w75 ++ w85 ++ markFailedProvenance env.tableName env.now p.postId e)
      | .ok _ =>
        let w90 := updateProgress env.tableName env.now p.postId "generating" 90
          "Saving provenance page" none
        match env.putPageOutcome with
        | .error e =>
          (.error e, [postInfo],
           w75 ++ w85 ++ w90 ++ markFailedProvenance env.tableName env.now p.postId e)
        | .ok _ =>
          let w95 := updateProgress env.tableName env.now p.postId "generating" 95
            "Provenance page completed" none
          (.ok { provenanceUrl := "https://" ++ env.provenancePublicBucket ++
                   ".s3.amazonaws.com/provenance/" ++ p.postId ++ "/index.html" },
           [postInfo], w75 ++ w85 ++ w90 ++ w95)

/-! ## The update-user-list step -/

/-- One entry of the `userPosts` array assembled by `update-user-list`. -/
structure ListedPost where
  postId : String
  createdAt : Nat
  text : String
  hasImages : Bool
  imageCount : Nat
  provenanceUrl : String
deriving DecidableEq, Repr

/-- Environment of the `update-user-list` step: `listPrefixes` is the
list of post ids obtained from the `provenance/` CommonPrefixes of the
public bucket, `postJsonOf` reads a post's `post.json` from the
post-data bucket. -/
structure UserListEnv where
  userJson : Except String UserInfoDB
  listPrefixes : Except String (List String)
  postJsonOf : String → Except String PostData
  putPage : Except String Unit
  distributionId : Option String
  invalidation : Except String Unit

/-- Descending creation-time order: the comparator
`(a, b) => new Date(b.createdAt).getTime() - new Date(a.createdAt).getTime()`. -/
def listedDesc (a b : ListedPost) : Prop := b.createdAt ≤ a.createdAt

instance : DecidableRel listedDesc := fun a b => Nat.decLe _ _

instance : IsTotal ListedPost listedDesc := ⟨fun a b => Nat.le_total b.createdAt a.createdAt⟩

instance : IsTrans ListedPost listedDesc := ⟨fun _ _ _ h1 h2 => Nat.le_trans h2 h1⟩

/-- The per-prefix body of the scan loop: the post's `post.json` is
fetched (a failure is logged and the prefix skipped) and the entry is
kept only when its `userId` matches the current user.  Note that no
deletion marker of the posts table is consulted anywhere in this step. -/
def listedOf (env : UserListEnv) (userId pid : String) : Option ListedPost :=
  match env.postJsonOf pid with
  | .error _ => none
  | .ok pd =>
    if pd.userId = userId then
      some { postId := pid, createdAt := pd.createdAt,
             text := pd.text.getD "",
             hasImages := (match pd.imageMetadata with
               | some l => decide (0 < l.length)
               | none => false) || strTruthy pd.image,
             imageCount := match pd.imageMetadata with
               | some l => l.length
               | none => if strTruthy pd.image then 1 else 0,
             provenanceUrl := "/provenance/" ++ pid ++ "/" }
    else none

structure UserListOut where
  pageKey : String
  userPosts : List ListedPost
  userListUrl : String
  totalPosts : Nat
deriving DecidableEq, Repr

/-- Handler of the `update-user-list` step.  An empty prefix string is
skipped (the `if (postIdFromPrefix)` guard); the assembled entries are
sorted newest first; the listing page is always written at the stable
`users/provenancePageId.html` key (also for an empty list); the
CloudFront invalidation is attempted only when a distribution id is
configured and its outcome is caught, logged and discarded.  The step
writes no progress record. -/
def userListStep (env : UserListEnv) (userId : String) :
    Except String UserListOut :=
  match env.userJson with
  | .error e => .error e
  | .ok ui =>
    match env.listPrefixes with
    | .error e => .error e
    | .ok pids =>
      let userPosts := List.insertionSort listedDesc
        (pids.filterMap fun pid => if pid = "" then none else listedOf env userId pid)
      match env.putPage with
      | .error e => .error e
      | .ok _ =>
        let _invalidationOutcome : Option (Except String Unit) :=
          match env.distributionId with
          | some _ => some env.invalidation
          | none => none
        .ok { pageKey := "users/" ++ ui.provenancePageId ++ ".html",
              userPosts := userPosts,
              userListUrl := "/users/" ++ ui.provenancePageId ++ ".html",
              totalPosts := userPosts.length }

/-! ## The SQS trigger and the state machine -/

/-- The queue message consumed by the trigger (batch size 1). -/
structure QueueMessage where
  postId : String
  userId : String
  bucket : String
  timestamp : Nat
deriving DecidableEq, Repr

/-- The Step Functions execution input.  The `CheckImageCount` choice
reads `imageMetadata[0]` and the Map state's `itemsPath` reads
`imageMetadata`, so the field is part of the input type; its absence is
`none`. -/
structure ExecInput where
  postId : String
  userId : String
  bucket : Option String
  timestamp : Nat
  imageMetadata : Option (List ImageMeta)
deriving DecidableEq, Repr

/-- The execution input built by `src/lambda/batch/trigger.ts`: exactly
the four fields `postId`, `userId`, `bucket`, `timestamp` copied from
the parsed queue message.  The handler includes no `imageMetadata` key
(hence `none`), loads nothing from S3 and performs no progress-table
write (the file imports no DynamoDB client at all). -/
def triggerExecutionInput (m : QueueMessage) : ExecInput :=
  { postId := m.postId, userId := m.userId, bucket := some m.bucket,
    timestamp := m.timestamp, imageMetadata := none }

inductive RunOutcome where
  | invalidImageCountEnd
  | success
  | failedStep (name : String)
deriving DecidableEq, Repr

/-- Environment of one whole execution. -/
structure PipelineEnv where
  watermarkOk : Nat → Bool
  publishEnv : PublishEnv
  provEnv : ProvEnv
  listEnv : UserListEnv

/-- Observable result of one execution: the terminal state, how many
watermark branches ran, whether the Publish lambda was invoked and
succeeded, the PostRecords persisted and all progress writes in order. -/
structure RunResult where
  outcome : RunOutcome
  watermarkInvocations : Nat
  publishInvoked : Bool
  publishSucceeded : Bool
  savedPosts : List PostInfo
  writes : List ProgressItem

/-- The state machine of `src/lib/batch-stack.ts`:
`CheckImageCount` branches on `isPresent($.imageMetadata[0])` — when the
field is absent or the list empty the workflow ends in the
`InvalidImageCountEnd` success state without running any task; otherwise
the Map state runs one `embed-watermark` invocation per item
(`maxConcurrency` 4 equals the largest admissible item count, so every
branch starts), fail-fast, then `PostToBlueskyTask`,
`GenerateProvenanceTask` and `UpdateUserListTask` run in sequence, each
halting the execution on error (no retries: `retryAttempts` 0 and no
state-level retry/catch).

Modelled from the spec: the `embed-watermark` Lambda itself (a Python
Docker image, `lambda.batch.embed_watermark.handler`, whose source is
not under `src/`) is, per the watermark collaborator contract, invoked
once per image with the Map item parameters and yields only success or
failure, writes no progress record, and its output payload carries the
execution's `postId`/`bucket` through to the fan-in array read by
Publish.  Branch success is drawn from `watermarkOk` at the image index;
`watermarkInvocations` counts one invocation per item (with more than 4
items a fail-fast run could cancel not-yet-started branches, which is
not modelled — no claim depends on the count of a failed run). -/
def stateMachineRun (input : ExecInput) (env : PipelineEnv) : RunResult :=
  match input.imageMetadata with
  | none =>
    { outcome := .invalidImageCountEnd, watermarkInvocations := 0,
      publishInvoked := false, publishSucceeded := false,
      savedPosts := [], writes := [] }
  | some items =>
    if items.isEmpty then
      { outcome := .invalidImageCountEnd, watermarkInvocations := 0,
        publishInvoked := false, publishSucceeded := false,
        savedPosts := [], writes := [] }
    else if items.all (fun it => env.watermarkOk it.index) then
      match publishStep env.publishEnv input.postId input.bucket with
      | (.error _, wr) =>
        { outcome := .failedStep "PostToBlueskyTask",
          watermarkInvocations := items.length, publishInvoked := true,
          publishSucceeded := false, savedPosts := [], writes := wr }
      | (.ok pout, wr) =>
        match provenanceStep env.provEnv pout with
        | (.error _, saved, wr2) =>
          { outcome := .failedStep "GenerateProvenanceTask",
            watermarkInvocations := items.length, publishInvoked := true,
            publishSucceeded := true, savedPosts := saved,
            writes := wr ++ wr2 }
        | (.ok _, saved, wr2) =>
          match userListStep env.listEnv pout.userId with
          | .error _ =>
            { outcome := .failedStep "UpdateUserListTask",
              watermarkInvocations := items.length, publishInvoked := true,
              publishSucceeded := true, savedPosts := saved,
              writes := wr ++ wr2 }
          | .ok _ =>
            { outcome := .success,
              watermarkInvocations := items.length, publishInvoked := true,
              publishSucceeded := true, savedPosts := saved,
              writes := wr ++ wr2 }
    else
      { outcome := .failedStep "ParallelWatermarkTasks",
        watermarkInvocations := items.length, publishInvoked := false,
        publishSucceeded := false, savedPosts := [], writes := [] }

/-! ## PostDB (`src/lambda/common/post-db.ts`)

The posts DynamoDB table: partition key `postId`, GSI `UserIdIndex` on
`userId` with sort key `createdAt`.  An item is what the last `PutItem`
for its key stored, every attribute other than the key optional. -/

structure PostItem where
  postId : String
  userId : Option String
  blueskyUserId : Option String
  text : Option String
  imageMetadata : Option (List ImageMeta)
  contentLabels : Option (List String)
  blueskyPostUri : Option String
  postedAt : Option Nat
  createdAt : Option Nat
  provenancePageId : Option String
  deletedAt : Option String
deriving DecidableEq, Repr

def PostTable := List PostItem

/-- A DynamoDB `PutItem` replaces the item with the same key whole. -/
def putItem (t : PostTable) (it : PostItem) : PostTable :=
  it :: List.filter (fun j => !(j.postId = it.postId)) t

/-- Embedding of `PostDB.getPost`: a `GetItem` on the key, returning
null when the item is absent or carries a `deletedAt` marker. -/
def getPost (t : PostTable) (pid : String) : Option PostItem :=
  match List.find? (fun j => j.postId = pid) t with
  | some it => if it.deletedAt.isSome then none else some it
  | none => none

/-- Embedding of `PostDB.getUserPosts`: a query on `UserIdIndex` for the
user with filter `attribute_not_exists(deletedAt)`.  (The descending
`createdAt` order from `ScanIndexForward: false` is not modelled; no
claim depends on the order.) -/
def getUserPosts (t : PostTable) (uid : String) : List PostItem :=
  List.filter (fun j => j.userId = some uid && j.deletedAt = none) t

/-- Embedding of `PostDB.deletePost`: a `PutItem` whose item carries
only the key and the `deletedAt` marker, replacing the stored record. -/
def deletePost (t : PostTable) (pid : String) (now : String) : PostTable :=
  putItem t
    { postId := pid, userId := none, blueskyUserId := none, text := none,
      imageMetadata := none, contentLabels := none, blueskyPostUri := none,
      postedAt := none, createdAt := none, provenancePageId := none,
      deletedAt := some now }

/-! ## Concrete fixtures for the evaluation theorems -/

def msgC1 : QueueMessage :=
  { postId := "p1", userId := "u1", bucket := "posts-bucket",
    timestamp := 1700000000 }

def imgs2 : List ImageMeta :=
  [ { index := 0, extension := "png", format := "png", altText := none },
    { index := 1, extension := "jpg", format := "jpeg", altText := some "a cat" } ]

def postDataC1 : PostData :=
  { userId := "u1", text := some "hi", contentLabels := none,
    imageMetadata := some imgs2, image := none, createdAt := 1699990000 }

def userS3Ok : UserInfoS3 :=
  { blueskyUserId := "alice.bsky.social", encryptedBlueskyAppPassword := "enc" }

def userDbOk : UserInfoDB :=
  { blueskyUserId := "alice.bsky.social", provenancePageId := "ppid-1" }

def publishEnvOk : PublishEnv :=
  { tableName := some "progress-table", now := 1700000100,
    postDataBucket := "posts-bucket",
    postJson := .ok postDataC1,
    userJson := fun _ => .ok userS3Ok,
    decrypt := fun _ => .ok "app-password",
    login := fun _ _ => .ok (),
    resolveHandle := fun _ => none,
    fetchImage := fun _ => .ok (640, 480),
    uploadBlob := fun _ => .ok "blobref",
    createRecord := fun _ => .ok ("at://did:plc:x/app.bsky.feed.post/abc", "cid1") }

def provEnvOk : ProvEnv :=
  { tableName := some "progress-table", now := 1700000200,
    provenancePublicBucket := "prov-public",
    postJson := .ok postDataC1,
    getUserInfo := fun _ => .ok (some userDbOk),
    savePostOutcome := .ok (),
    putPageOutcome := .ok () }

def listEnvOk : UserListEnv :=
  { userJson := .ok userDbOk,
    listPrefixes := .ok ["p1"],
    postJsonOf := fun _ => .ok postDataC1,
    putPage := .ok (),
    distributionId := some "DIST1",
    invalidation := .ok () }

def envOk : PipelineEnv :=
  { watermarkOk := fun _ => true, publishEnv := publishEnvOk,
    provEnv := provEnvOk, listEnv := listEnvOk }

/-- The execution input that a trigger faithful to the spec would have
produced for the same post: the same four fields plus the submission's
image metadata. -/
def inputWithImages : ExecInput :=
  { postId := "p1", userId := "u1", bucket := some "posts-bucket",
    timestamp := 1700000000, imageMetadata := some imgs2 }

/-- A provenance environment whose user lookup finds no record: the
provenance step then throws before reaching `savePost`. -/
def provEnvNoUser : ProvEnv :=
  { provEnvOk with getUserInfo := fun _ => .ok none }

def envProvNoUser : PipelineEnv := { envOk with provEnv := provEnvNoUser }

/-- A publish environment whose Bluesky login throws. -/
def publishEnvLoginFail : PublishEnv :=
  { publishEnvOk with login := fun _ _ => .error "boom" }

/-! ## Theorems for the pipeline claims -/

/-- C1 (code bug): the `CheckImageCount` choice and the Map's
`itemsPath` read `imageMetadata` from the execution input, but the
trigger builds that input without the field.  For the queue message of a
post whose submission has 2 images (so n = 2 with 1 ≤ n ≤ 4, with every
collaborator healthy), the execution started from the trigger's input
ends at `InvalidImageCountEnd`: the watermark step is invoked 0 times —
not n — and Publish is never invoked — not once. -/
theorem trigger_input_never_reaches_watermark :
    postDataC1.imageMetadata = some imgs2 ∧ imgs2.length = 2 ∧
    (stateMachineRun (triggerExecutionInput msgC1) envOk).outcome =
      .invalidImageCountEnd ∧
    (stateMachineRun (triggerExecutionInput msgC1) envOk).watermarkInvocations = 0 ∧
    (stateMachineRun (triggerExecutionInput msgC1) envOk).publishInvoked = false := by
  refine ⟨rfl, rfl, ?_, ?_, ?_⟩ <;> decide

/-- C2 (code bug): even a fully successful execution (run here on an
input that does carry the image metadata, so every step actually runs)
never writes a ProgressRecord with status `completed` or progress 100;
its final write is the provenance step's `generating`/95 record, for
which the polling endpoint reports `completed = false`.  No pipeline
step writes a terminal completed record. -/
theorem pipeline_never_writes_completed :
    (stateMachineRun inputWithImages envOk).outcome = .success ∧
    ((stateMachineRun inputWithImages envOk).writes.all
      (fun w => !(w.status = "completed") && !(w.progress = 100))) = true ∧
    (stateMachineRun inputWithImages envOk).writes.getLast?.map
      (fun w => (w.status, w.progress)) = some ("generating", 95) ∧
    (stateMachineRun inputWithImages envOk).writes.getLast?.map
      (fun w => (progressResponse w).completed) = some false := by
  refine ⟨?_, ?_, ?_, ?_⟩ <;> decide

/-- C3 (code bug): the trigger's execution input for a concrete queue
message is exactly the four message fields — `imageMetadata` is absent
(`none`), no PostSubmission is loaded, and the handler performs no
ProgressRecord write at all (no `starting`/0 record exists anywhere in
the source). -/
theorem trigger_builds_bare_input :
    triggerExecutionInput msgC1 =
      { postId := "p1", userId := "u1", bucket := some "posts-bucket",
        timestamp := 1700000000, imageMetadata := none } ∧
    (triggerExecutionInput msgC1).imageMetadata = none := by
  exact ⟨rfl, rfl⟩

/-- C4 counterexample: an execution whose Publish step succeeds but whose
Provenance step throws before `savePost` (here: the user record is
missing) persists no PostRecord, falsifying "an execution whose Publish
step succeeds always creates exactly one PostRecord". -/
theorem publish_succeeded_without_postrecord :
    (stateMachineRun inputWithImages envProvNoUser).publishSucceeded = true ∧
    (stateMachineRun inputWithImages envProvNoUser).savedPosts = [] ∧
    (stateMachineRun inputWithImages envProvNoUser).outcome =
      .failedStep "GenerateProvenanceTask" := by
  refine ⟨?_, ?_, ?_⟩ <;> decide

/-- The provenance step persists at most one PostRecord per invocation. -/
theorem provenanceStep_saved_le_one (env : ProvEnv) (p : PublishOut) :
    (provenanceStep env p).2.1.length ≤ 1 := by
  unfold provenanceStep
  split
  · simp
  · split
    · simp
    · simp
    · split
      · simp
      · split <;> simp

/-- Restatement of `provenanceStep_saved_le_one` against an arbitrary
decomposition of the step's result triple. -/
theorem provenanceStep_saved_le_one' (env : ProvEnv) (p : PublishOut)
    (res : Except String ProvOut) (saved : List PostInfo)
    (wr : List ProgressItem) (h : provenanceStep env p = (res, saved, wr)) :
    saved.length ≤ 1 := by
  have := provenanceStep_saved_le_one env p
  rw [h] at this
  simpa using this

/-- An execution that never reached a successful Publish persists no
PostRecord. -/
theorem no_publish_no_postrecord (input : ExecInput) (env : PipelineEnv) :
    (stateMachineRun input env).savedPosts = [] ∨
    (stateMachineRun input env).publishSucceeded = true := by
  unfold stateMachineRun
  split
  · exact Or.inl rfl
  · split
    · exact Or.inl rfl
    · split
      · split
        · exact Or.inl rfl
        · split
          · exact Or.inr rfl
          · split
            · exact Or.inr rfl
            · exact Or.inr rfl
      · exact Or.inl rfl

/-- C4 (amended): a PostRecord is persisted only by an execution whose
Publish step succeeded, and at most one per execution; a successful
Publish yields exactly one PostRecord provided the Provenance step
reaches `savePost` without a prior failure (post data readable, user
record present, save write healthy) — a Provenance failure before
`savePost` instead leaves a successfully published post with no
PostRecord. -/
theorem postrecord_only_with_successful_publish
    (input : ExecInput) (env : PipelineEnv) (pout : PublishOut)
    (pd : PostData) (ui : UserInfoDB)
    (hpj : env.provEnv.postJson = .ok pd)
    (hui : env.provEnv.getUserInfo pout.userId = .ok (some ui))
    (hsave : env.provEnv.savePostOutcome = .ok ()) :
    ((stateMachineRun input env).savedPosts = [] ∨
      (stateMachineRun input env).publishSucceeded = true) ∧
    (stateMachineRun input env).savedPosts.length ≤ 1 ∧
    (provenanceStep env.provEnv pout).2.1.length = 1 := by
  refine ⟨no_publish_no_postrecord input env, ?_, ?_⟩
  · unfold stateMachineRun
    split
    · simp
    · split
      · simp
      · split
        · split
          · simp
          · split
            · exact provenanceStep_saved_le_one' _ _ _ _ _ (by assumption)
            · split
              · exact provenanceStep_saved_le_one' _ _ _ _ _ (by assumption)
              · exact provenanceStep_saved_le_one' _ _ _ _ _ (by assumption)
        · simp
  · simp only [provenanceStep, hpj, hui, hsave]
    split <;> simp

/-- A concrete Publish output payload used to instantiate the provenance
step in witnesses. -/
def publishOutFixture : PublishOut :=
  { postId := "p1", userId := "u1", bucket := "posts-bucket",
    blueskyPostUri := "at://did:plc:x/app.bsky.feed.post/abc",
    blueskyPostCid := "cid1", postedAt := 1700000100,
    content := { text := some "hi", createdAt := 1700000100,
                 facets := none, labels := none, embed := none } }

/-- C4 amended witness: at the all-healthy environment the Publish step
succeeded, the Provenance step reached `savePost`, and exactly one
PostRecord was persisted. -/
theorem postrecord_only_with_successful_publish_witness :
    envOk.provEnv.postJson = .ok postDataC1 ∧
    envOk.provEnv.savePostOutcome = .ok () ∧
    (((stateMachineRun inputWithImages envOk).savedPosts = [] ∨
       (stateMachineRun inputWithImages envOk).publishSucceeded = true) ∧
     (stateMachineRun inputWithImages envOk).savedPosts.length ≤ 1 ∧
     (provenanceStep envOk.provEnv
        (publishOutFixture)).2.1.length = 1) :=
  ⟨rfl, rfl,
   postrecord_only_with_successful_publish inputWithImages envOk
     publishOutFixture postDataC1 userDbOk rfl rfl rfl⟩

/-- No `error.message || 'Unknown error'` fallback is empty. -/
theorem orUnknown_ne_empty (s : String) : ¬ orUnknown s = "" := by
  unfold orUnknown
  split <;> simp_all

/-- C8: whenever the Publish handler's body throws — at any of its
fallible calls — the handler writes, as its final progress write, an
error record with progress 40, message "Bluesky posting failed" and the
error text attached, and re-raises the exception (the handler result
stays the error; it never returns normally after a failure). -/
theorem publish_failure_marks_error_then_rethrows
    (env : PublishEnv) (pid : String) (bucket : Option String)
    (T : String) (hT : env.tableName = some T) (e : String)
    (h : (publishStep env pid bucket).1 = .error e) :
    (publishStep env pid bucket).2.getLast? =
      some { task_id := pid, status := "error", progress := 40,
             message := "Bluesky posting failed", updated_at := env.now,
             ttl := env.now + 86400, error := some (orUnknown e) } := by
  rcases hpj : env.postJson with e1 | pd
  · simp only [publishStep, hpj] at h ⊢
    simp only [Except.error.injEq] at h
    subst h
    simp [markFailedPublish, updateProgress, hT, orUnknown_ne_empty]
  · rcases huj : env.userJson pd.userId with e1 | ui
    · simp only [publishStep, hpj, huj] at h ⊢
      simp only [Except.error.injEq] at h
      subst h
      simp [markFailedPublish, updateProgress, hT, orUnknown_ne_empty]
    · rcases hd : env.decrypt ui.encryptedBlueskyAppPassword with e1 | pw
      · simp only [publishStep, hpj, huj, hd] at h ⊢
        simp only [Except.error.injEq] at h
        subst h
        simp [markFailedPublish, updateProgress, hT, orUnknown_ne_empty]
      · rcases hl : env.login ui.blueskyUserId pw with e1 | u
        · simp only [publishStep, hpj, huj, hd, hl] at h ⊢
          simp only [Except.error.injEq] at h
          subst h
          simp [markFailedPublish, updateProgress, hT, orUnknown_ne_empty,
            List.append_assoc, List.getLast?_concat]
        · rcases hc : env.createRecord
              { text := pd.text, createdAt := env.now,
                facets := if strTruthy pd.text then
                    let fs := detectFacets env.resolveHandle (pd.text.getD "").toList
                    if fs.isEmpty then none else some fs
                  else none,
                labels := match pd.contentLabels with
                  | some ls => if 0 < ls.length then some ls else none
                  | none => none,
                embed := match pd.imageMetadata with
                  | some ms =>
                    if 0 < ms.length then
                      match buildImages env pid ms with
                      | some imgs => if 0 < imgs.length then some imgs else none
                      | none => none
                    else none
                  | none => none } with e1 | uc
          · simp only [publishStep, hpj, huj, hd, hl, hc] at h ⊢
            simp only [Except.error.injEq] at h
            subst h
            simp [markFailedPublish, updateProgress, hT, orUnknown_ne_empty,
              List.append_assoc, List.getLast?_concat]
          · simp only [publishStep, hpj, huj, hd, hl, hc] at h
            exact absurd h (by simp)

/-- C8 witness: with a failing Bluesky login the handler result is the
re-raised error and the final progress write is the error/40 record. -/
theorem publish_failure_marks_error_witness :
    publishEnvLoginFail.tableName = some "progress-table" ∧
    (publishStep publishEnvLoginFail "p1" (some "posts-bucket")).1 = .error "boom" ∧
    (publishStep publishEnvLoginFail "p1" (some "posts-bucket")).2.getLast? =
      some { task_id := "p1", status := "error", progress := 40,
             message := "Bluesky posting failed", updated_at := 1700000100,
             ttl := 1700000100 + 86400, error := some (orUnknown "boom") } :=
  ⟨rfl, rfl,
   publish_failure_marks_error_then_rethrows publishEnvLoginFail "p1"
     (some "posts-bucket") "progress-table" rfl "boom" rfl⟩

/-! ## Theorems for the reindex and PostDB claims -/

/-- A submission of user u1 whose post was soft-deleted afterwards. -/
def postDataOld : PostData :=
  { userId := "u1", text := some "old post", contentLabels := none,
    imageMetadata := some imgs2, image := none, createdAt := 1690000000 }

/-- A reindex environment in which post p1 still has its provenance
prefix and its `post.json` in the buckets (nothing ever deletes those
objects), while the posts table carries a deletion marker for it. -/
def listEnvDeleted : UserListEnv :=
  { userJson := .ok userDbOk,
    listPrefixes := .ok ["p1"],
    postJsonOf := fun _ => .ok postDataOld,
    putPage := .ok (),
    distributionId := some "DIST1",
    invalidation := .ok () }

/-- The posts table after `deletePost` marked p1 deleted. -/
def tableWithDeletedP1 : PostTable := deletePost [] "p1" "2026-02-02T00:00:00Z"

/-- C9 counterexample: the reindex step scans the provenance prefixes of
the public bucket and filters by the `userId` of each `post.json`; it
never consults the posts table, so a post marked deleted there (readers
of the table treat it as not found) is still listed on the regenerated
user page, falsifying "excluding posts marked deleted". -/
theorem reindex_includes_deleted_posts :
    getPost tableWithDeletedP1 "p1" = none ∧
    (userListStep listEnvDeleted "u1").toOption.map
      (fun o => o.userPosts.map (fun p => p.postId)) = some ["p1"] := by
  refine ⟨?_, ?_⟩ <;> decide

/-- C9 (amended): whenever the user record, the bucket listing and the
page write succeed, the reindex step succeeds and republishes the
listing page at the same stable `users/provenancePageId.html` key
regardless of how many posts exist, including zero; the list it renders
is exactly the prefixes whose readable `post.json` carries the user's
id (deletion markers in the posts table are not consulted), sorted by
`createdAt` descending; the outcome of the cache-invalidation call does
not affect the step's result. -/
theorem reindex_stable_path_and_sorted (env : UserListEnv) (uid : String)
    (ui : UserInfoDB) (hu : env.userJson = .ok ui)
    (pids : List String) (hl : env.listPrefixes = .ok pids)
    (hp : env.putPage = .ok ()) :
    userListStep env uid = .ok
      { pageKey := "users/" ++ ui.provenancePageId ++ ".html",
        userPosts := List.insertionSort listedDesc
          (pids.filterMap fun pid => if pid = "" then none else listedOf env uid pid),
        userListUrl := "/users/" ++ ui.provenancePageId ++ ".html",
        totalPosts := (List.insertionSort listedDesc
          (pids.filterMap fun pid =>
            if pid = "" then none else listedOf env uid pid)).length } ∧
    List.Sorted listedDesc (List.insertionSort listedDesc
      (pids.filterMap fun pid => if pid = "" then none else listedOf env uid pid)) := by
  constructor
  · simp [userListStep, hu, hl, hp]
  · exact List.sorted_insertionSort listedDesc _

/-- A reindex environment with zero provenance prefixes and a failing
CloudFront invalidation. -/
def listEnvCfFail : UserListEnv :=
  { userJson := .ok userDbOk,
    listPrefixes := .ok [],
    postJsonOf := fun _ => .error "absent",
    putPage := .ok (),
    distributionId := some "DIST1",
    invalidation := .error "cf down" }

/-- C9 amended witness: with zero posts and a failing invalidation the
step still succeeds and writes the page at the stable key. -/
theorem reindex_stable_path_witness :
    listEnvCfFail.invalidation = .error "cf down" ∧
    listEnvCfFail.listPrefixes = .ok [] ∧
    (userListStep listEnvCfFail "u1" = .ok
      { pageKey := "users/" ++ userDbOk.provenancePageId ++ ".html",
        userPosts := List.insertionSort listedDesc
          (([] : List String).filterMap fun pid =>
            if pid = "" then none else listedOf listEnvCfFail "u1" pid),
        userListUrl := "/users/" ++ userDbOk.provenancePageId ++ ".html",
        totalPosts := (List.insertionSort listedDesc
          (([] : List String).filterMap fun pid =>
            if pid = "" then none else listedOf listEnvCfFail "u1" pid)).length } ∧
     List.Sorted listedDesc (List.insertionSort listedDesc
      (([] : List String).filterMap fun pid =>
        if pid = "" then none else listedOf listEnvCfFail "u1" pid))) :=
  ⟨rfl, rfl,
   reindex_stable_path_and_sorted listEnvCfFail "u1" userDbOk rfl [] rfl rfl⟩

/-- C10: `deletePost` replaces the stored item with one holding only the
key and the `deletedAt` marker, so every other PostRecord field is
erased rather than retained; afterwards `getPost` returns null for the
id and `getUserPosts` omits it for every user. -/
theorem deletePost_erases_all_fields (t : PostTable) (pid : String) (now : String) :
    List.find? (fun j => j.postId = pid) (deletePost t pid now) =
      some { postId := pid, userId := none, blueskyUserId := none, text := none,
             imageMetadata := none, contentLabels := none, blueskyPostUri := none,
             postedAt := none, createdAt := none, provenancePageId := none,
             deletedAt := some now } ∧
    getPost (deletePost t pid now) pid = none ∧
    ∀ uid : String, ((getUserPosts (deletePost t pid now) uid).all
      (fun j => !(j.postId = pid))) = true := by
  refine ⟨?_, ?_, ?_⟩
  · simp [deletePost, putItem]
  · simp [getPost, deletePost, putItem]
  · intro uid
    rw [List.all_eq_true]
    intro j hj
    simp only [getUserPosts, deletePost, putItem, List.filter_cons] at hj
    norm_num at hj
    have hpred := (List.mem_filter.mp hj).2
    simp only [Bool.and_eq_true] at hpred
    tauto

/-! ## Monotonicity of the progress writes (C5) -/

/-- Position of a status along the forward chain
`starting → posting → generating → completed`. -/
def statusRank (s : String) : Nat :=
  if s = "starting" then 0
  else if s = "posting" then 1
  else if s = "generating" then 2
  else if s = "completed" then 3
  else 4

/-- An admissible consecutive pair of progress writes: status moves
forward along the chain (or to `error` from any state), progress does
not decrease onto a non-error write, and nothing at all follows an
`error` or `completed` write. -/
def progressStepOk (a b : ProgressItem) : Prop :=
  (statusRank a.status ≤ statusRank b.status ∨ b.status = "error") ∧
  (¬ b.status = "error" → a.progress ≤ b.progress) ∧
  ¬ a.status = "error" ∧ ¬ a.status = "completed"

/-- The writes of one Publish invocation form an admissible chain. -/
theorem pubChain (env : PublishEnv) (pid : String) (b : Option String) :
    List.Chain' progressStepOk (publishStep env pid b).2 := by
  rcases hT : env.tableName with _ | T <;>
    simp only [publishStep, markFailedPublish, updateProgress, hT] <;>
    (repeat' split) <;>
    simp [progressStepOk, statusRank, List.chain'_cons]

/-- The writes of one Provenance invocation form an admissible chain. -/
theorem provChain (env : ProvEnv) (p : PublishOut) :
    List.Chain' progressStepOk (provenanceStep env p).2.2 := by
  rcases hT : env.tableName with _ | T <;>
    simp only [provenanceStep, markFailedProvenance, updateProgress, hT] <;>
    (repeat' split) <;>
    simp [progressStepOk, statusRank, List.chain'_cons]

/-- A successful Publish invocation's final write is the posting/70
record. -/
theorem pubLastOk (env : PublishEnv) (pid : String) (b : Option String)
    (out : PublishOut) (h : (publishStep env pid b).1 = .ok out)
    (x : ProgressItem) (hx : (publishStep env pid b).2.getLast? = some x) :
    x.status = "posting" ∧ x.progress = 70 := by
  rcases hpj : env.postJson with e1 | pd
  · simp only [publishStep, hpj] at h
    exact absurd h (by simp)
  · rcases huj : env.userJson pd.userId with e1 | ui
    · simp only [publishStep, hpj, huj] at h
      exact absurd h (by simp)
    · rcases hd : env.decrypt ui.encryptedBlueskyAppPassword with e1 | pw
      · simp only [publishStep, hpj, huj, hd] at h
        exact absurd h (by simp)
      · rcases hl : env.login ui.blueskyUserId pw with e1 | u
        · simp only [publishStep, hpj, huj, hd, hl] at h
          exact absurd h (by simp)
        · rcases hc : env.createRecord
              { text := pd.text, createdAt := env.now,
                facets := if strTruthy pd.text then
                    let fs := detectFacets env.resolveHandle (pd.text.getD "").toList
                    if fs.isEmpty then none else some fs
                  else none,
                labels := match pd.contentLabels with
                  | some ls => if 0 < ls.length then some ls else none
                  | none => none,
                embed := match pd.imageMetadata with
                  | some ms =>
                    if 0 < ms.length then
                      match buildImages env pid ms with
                      | some imgs => if 0 < imgs.length then some imgs else none
                      | none => none
                    else none
                  | none => none } with e1 | uc
          · simp only [publishStep, hpj, huj, hd, hl, hc] at h
            exact absurd h (by simp)
          · rcases hT : env.tableName with _ | T
            · simp only [publishStep, hpj, huj, hd, hl, hc, updateProgress, hT] at hx
              exact absurd hx (by simp)
            · simp only [publishStep, hpj, huj, hd, hl, hc, updateProgress, hT] at hx
              injection hx with hx
              rw [← hx]
              exact ⟨rfl, rfl⟩

/-- Every Provenance invocation's first write is the generating/75
record (when the table is configured; with no table there are no
writes). -/
theorem provHead (env : ProvEnv) (p : PublishOut) (y : ProgressItem)
    (hy : (provenanceStep env p).2.2.head? = some y) :
    y.status = "generating" ∧ y.progress = 75 := by
  rcases hT : env.tableName with _ | T <;>
    simp only [provenanceStep, markFailedProvenance, updateProgress, hT] at hy <;>
    (repeat' split at hy) <;>
    simp_all <;>
    (rw [← hy]; exact ⟨rfl, rfl⟩)

/-- Concatenating the writes of a successful Publish invocation with any
Provenance invocation's writes keeps the chain admissible. -/
theorem pipeline_append_chain (penv : PublishEnv) (pid : String)
    (b : Option String) (pout : PublishOut) (wr : List ProgressItem)
    (heq : publishStep penv pid b = (.ok pout, wr))
    (prenv : ProvEnv) (res : Except String ProvOut) (saved : List PostInfo)
    (wr2 : List ProgressItem)
    (heq2 : provenanceStep prenv pout = (res, saved, wr2)) :
    List.Chain' progressStepOk (wr ++ wr2) := by
  rw [List.chain'_append]
  refine ⟨?_, ?_, ?_⟩
  · have hch := pubChain penv pid b
    rw [heq] at hch
    exact hch
  · have hch := provChain prenv pout
    rw [heq2] at hch
    exact hch
  · intro x hx y hy
    have hx' : (publishStep penv pid b).2.getLast? = some x := by
      rw [heq]; exact hx
    have h1 : (publishStep penv pid b).1 = .ok pout := by rw [heq]
    obtain ⟨hxs, hxp⟩ := pubLastOk penv pid b pout h1 x hx'
    have hy' : (provenanceStep prenv pout).2.2.head? = some y := by
      rw [heq2]; exact hy
    obtain ⟨hys, hyp⟩ := provHead prenv pout y hy'
    simp [progressStepOk, statusRank, hxs, hxp, hys, hyp]

/-- C5: for any execution input and any environment (all failure
combinations of all collaborators), the sequence of ProgressRecord
writes the pipeline steps make for the task is an admissible chain:
status only moves forward along starting → posting → generating →
completed or to error from any state, progress never decreases onto a
non-error write, and no write follows a `completed` or `error` write.
(spec-modelled: the embed-watermark step, whose source is not under
src/, is assigned no progress writes by the spec; the trigger and
update-user-list write none in the source.) -/
theorem progress_writes_monotone (input : ExecInput) (env : PipelineEnv) :
    List.Chain' progressStepOk (stateMachineRun input env).writes := by
  unfold stateMachineRun
  split
  · simp
  · split
    · simp
    · split
      · split
        · rename_i e wr heq
          have hch := pubChain env.publishEnv input.postId input.bucket
          rw [heq] at hch
          exact hch
        · rename_i pout wr heq
          split
          · rename_i e saved wr2 heq2
            exact pipeline_append_chain env.publishEnv input.postId
              input.bucket pout wr heq env.provEnv _ saved wr2 heq2
          · rename_i o saved wr2 heq2
            split
            · exact pipeline_append_chain env.publishEnv input.postId
                input.bucket pout wr heq env.provEnv _ saved wr2 heq2
            · exact pipeline_append_chain env.publishEnv input.postId
                input.bucket pout wr heq env.provEnv _ saved wr2 heq2
      · simp

end Brw
